import Mathlib

/-!
Verification of the PyMove convergence cleaning engine
(src/pymove/preprocessing/filters.py) and the trajectory similarity query
engine (src/pymove/query/query.py), shallowly embedded over lists of rows.

Float cells of feature columns are modelled as rationals extended with an
explicit NaN constructor, following pandas/numpy semantics: any ordering
comparison against NaN is false, and numpy nan_to_num maps NaN to 0.
Dataframes are lists of rows in positional order; boolean-series predicates
become lists of booleans aligned with the rows.
-/

namespace PyMove

/-- A float cell of a feature column: NaN or a rational value. -/
inductive FVal where
  | nan : FVal
  | val : ℚ → FVal
deriving DecidableEq, Repr

/-- pandas comparison x <= t: false when x is NaN. -/
def FVal.leQ : FVal → ℚ → Bool
  | .nan, _ => false
  | .val q, t => decide (q ≤ t)

/-- numpy nan_to_num: NaN becomes 0, values unchanged. -/
def FVal.toNum : FVal → ℚ
  | .nan => 0
  | .val q => q

/-- nan_to_num(x) > t, the comparison shape of _filter_speed_max_radius. -/
def FVal.gtNum (x : FVal) (t : ℚ) : Bool := decide (t < x.toNum)

/-- Rows of a dataframe selected by a boolean mask (pandas df[mask]). -/
def selectMasked {α : Type} (rows : List α) (m : List Bool) : List α :=
  ((rows.zip m).filter (fun p => p.2)).map Prod.fst

/-- Rows remaining after _clean_gps drops the rows the predicate selected
(move_data.drop(index=filter_data_points.index)). -/
def dropMasked {α : Type} (rows : List α) (m : List Bool) : List α :=
  ((rows.zip m).filter (fun p => !p.2)).map Prod.fst

/-- rows_to_drop of _filter_data: how many rows the predicate selects. -/
def rowsToDrop {α : Type} (rows : List α) (m : List Bool) : ℕ :=
  (selectMasked rows m).length

/-- _clean_gps: evaluate the predicate mask over the current rows, stop when
it selects no rows, otherwise drop the selected rows and repeat.  The index
reset of the source is the identity in this positional model, and the
sum_drop accumulator is logging only. -/
def cleanGps {α : Type} (mask : List α → List Bool) (rows : List α) : List α :=
  if h : rowsToDrop rows (mask rows) = 0 then rows
  else cleanGps mask (dropMasked rows (mask rows))
termination_by rows.length
decreasing_by
  have key : ∀ (l : List (α × Bool)),
      (l.filter (fun p => p.2)).length + (l.filter (fun p => !p.2)).length
        = l.length := by
    intro l
    induction l with
    | nil => simp
    | cons a l ih =>
      by_cases hb : a.2 = true <;> simp [List.filter_cons, hb] <;> omega
  have h1 := key ((rows.zip (mask rows)))
  have h2 : (rows.zip (mask rows)).length ≤ rows.length := by
    simp [List.length_zip]
  simp only [rowsToDrop, selectMasked, List.length_map] at h
  simp only [dropMasked, List.length_map]
  omega

/-- _filter_single_by_max: the sub-dataframe of rows with
move_data[feature] <= value; _clean_gps drops exactly these rows. -/
def filterSingleByMax {α : Type} (feature : α → FVal) (value : ℚ)
    (rows : List α) : List α :=
  rows.filter (fun r => (feature r).leQ value)

/-- The _filter_single_by_max predicate as the boolean series
move_data[feature] <= value. -/
def maskSingleByMax {α : Type} (feature : α → FVal) (value : ℚ)
    (rows : List α) : List Bool :=
  rows.map (fun r => (feature r).leQ value)

/-- pandas Series.shift(1): every position takes the value one position
earlier, the first becomes NaN (length preserved). -/
def shiftDownOne : List FVal → List FVal
  | [] => []
  | x :: xs => FVal.nan :: (x :: xs).dropLast

/-- pandas Series.shift(-1): every position takes the value one position
later, the last becomes NaN (length preserved). -/
def shiftUpOne : List FVal → List FVal
  | [] => []
  | _ :: xs => xs ++ [FVal.nan]

/-- The _filter_speed_max_radius predicate as the boolean series
nan_to_num(col.shift(1)) > value or nan_to_num(col) > value, where col is
the feature column. -/
def maskSpeedMaxRadius {α : Type} (feature : α → FVal) (value : ℚ)
    (rows : List α) : List Bool :=
  List.zipWith (fun s x => s.gtNum value || x.gtNum value)
    (shiftDownOne (rows.map feature)) (rows.map feature)

/-- Modelled from the spec: the speed-max-radius predicate as documented,
flagging a row when its own speed_to_prev exceeds the bound or the
speed_to_prev of the FOLLOWING row does (the column shifted by -1), NaN
treated as zero before the comparison. -/
def maskSpeedMaxRadiusSpec {α : Type} (feature : α → FVal) (value : ℚ)
    (rows : List α) : List Bool :=
  List.zipWith (fun x s => x.gtNum value || s.gtNum value)
    (rows.map feature) (shiftUpOne (rows.map feature))

/-- Point row for the nearby-points cleaners: a one-dimensional position
standing for the coordinate columns, plus the dist_to_prev feature column. -/
structure PRow where
  pos : ℚ
  distToPrev : FVal
deriving DecidableEq, Repr

/-- Feature values of the non-first points of a trajectory: distance from
the previous point. -/
def featTail (d : ℚ → ℚ → ℚ) : ℚ → List ℚ → List PRow
  | _, [] => []
  | prev, q :: qs => ⟨q, FVal.val (d prev q)⟩ :: featTail d q qs

/-- Modelled from the spec: the Motion Feature Provider (the external
collaborator generate_dist_features, not under src) produces per-point
distance-to-previous features over one trajectory, NaN at the first point
and the distance from the previous point otherwise; the point-to-point
distance function d is a parameter (great-circle in the real system). -/
def generateDistFeatures (d : ℚ → ℚ → ℚ) : List ℚ → List PRow
  | [] => []
  | p :: ps => ⟨p, FVal.nan⟩ :: featTail d p ps

/-- Feature consistency for one trajectory: the stored features are exactly
what the Motion Feature Provider yields on the current point sequence. -/
def featureConsistent (d : ℚ → ℚ → ℚ) (rows : List PRow) : Prop :=
  rows = generateDistFeatures d (rows.map PRow.pos)

/-- Concrete point-to-point distance used to instantiate the Motion
Feature Provider in the C1 example: the distance table of three collinear
one-dimensional points at coordinates 0, 5 and 25 (so d(0,5)=5,
d(5,25)=20, d(0,25)=25), written as a table rather than with rational
subtraction so that it reduces inside the kernel. -/
def exDistTable (p q : ℚ) : ℚ :=
  if p = 0 ∧ q = 5 then 5
  else if p = 5 ∧ q = 25 then 20
  else if p = 0 ∧ q = 25 then 25
  else 0

/-- Row carrying the trajectory id and the time_to_prev feature column. -/
structure TRow where
  rid : ℕ
  timeToPrev : FVal
deriving DecidableEq, Repr

/-- pandas Series.unique: distinct values in first-seen order, with the
already-seen values accumulated. -/
def uniqAux : List ℕ → List ℕ → List ℕ
  | _, [] => []
  | seen, x :: xs =>
    if x ∈ seen then uniqAux seen xs else x :: uniqAux (x :: seen) xs

/-- pandas Series.unique over a list of ids. -/
def uniqueFirstSeen (l : List ℕ) : List ℕ := uniqAux [] l

/-- groupby(label_id).agg with a sum of time_to_prev: pandas sums skip NaN
(equivalently treat it as 0). -/
def groupTimeSum (rows : List TRow) (i : ℕ) : ℚ :=
  ((rows.filter (fun r => r.rid = i)).map (fun r => r.timeToPrev.toNum)).sum

/-- clean_id_by_time_max: compute the ids whose summed time_to_prev is
strictly below time_max (the query step of the source) and drop every row
carrying such an id.  The shape guard of the source is a no-op here (an
empty drop set keeps every row) and only membership in the drop set
matters, not the grouped-key order. -/
def clean_id_by_time_max (rows : List TRow) (timeMax : ℚ) : List TRow :=
  let dropIds :=
    (uniqueFirstSeen (rows.map TRow.rid)).filter
      (fun i => decide (groupTimeSum rows i < timeMax))
  rows.filter (fun r => decide (r.rid ∉ dropIds))

/-- A point row of the query dataframes: the trajectory id column and a
payload standing for the remaining point columns. -/
structure QRow where
  rid : ℕ
  pt : ℕ
deriving DecidableEq, Repr

/-- Modelled from the spec: the distance-measure selector constant MEDP of
pymove.utils.constants (not under src); the claims only need that MEDP and
MEDT are two distinct selector values. -/
def MEDP : String := "medp"

/-- Modelled from the spec: the distance-measure selector constant MEDT of
pymove.utils.constants (not under src). -/
def MEDT : String := "medt"

/-- One iteration of the range_query candidate loop: select the rows of the
candidate id and append them to the accumulated result when the measured
distance is strictly below min_dist. -/
def rangeStep (traj mdf : List QRow) (minDist : ℚ)
    (m : List QRow → List QRow → ℚ) (result : List QRow) (tid : ℕ) :
    List QRow :=
  let cand := mdf.filter (fun r => r.rid = tid)
  if m traj cand < minDist then result ++ cand else result

/-- Candidate loop of range_query: iterate the distinct ids of move_df in
first-seen order, starting from the emptied copy of traj. -/
def rangeLoop (traj mdf : List QRow) (minDist : ℚ)
    (m : List QRow → List QRow → ℚ) : List QRow :=
  (uniqueFirstSeen (mdf.map QRow.rid)).foldl (rangeStep traj mdf minDist m) []

/-- range_query: dispatch on the distance selector, raising ValueError for
an unknown one, then run the candidate loop with the chosen measure.  The
medp and medt measures (pymove.utils.distances, an external collaborator of
the verified core) are treated as unspecified scalar-valued parameters. -/
def rangeQuery (traj mdf : List QRow) (minDist : ℚ) (distance : String)
    (medp medt : List QRow → List QRow → ℚ) : Except String (List QRow) :=
  if distance = MEDP then Except.ok (rangeLoop traj mdf minDist medp)
  else if distance = MEDT then Except.ok (rangeLoop traj mdf minDist medt)
  else Except.error "Unknown distance measure. Use MEDP or MEDT"

/-- Extended value of the k_list distance column: numpy Inf or a rational. -/
inductive EVal where
  | inf : EVal
  | val : ℚ → EVal
deriving DecidableEq, Repr

/-- Comparison this_distance < slot distance, every rational below Inf. -/
def EVal.qlt (d : ℚ) : EVal → Bool
  | .inf => true
  | .val q => decide (d < q)

/-- One slot of the k_list: the distance column and the traj_id column.
The source initialises the k_list dataframe with columns distance=Inf and
id=the string empty, but the update loop writes the candidate id into the
column traj_id, which is also the column the output loop reads; that
column is absent (NaN) until the first write, modelled here as none. -/
structure Slot where
  distance : EVal
  tid : Option ℕ
deriving DecidableEq, Repr

/-- Initial k_list: k sentinel slots of infinite distance and no traj_id. -/
def initKList (k : ℕ) : List Slot := List.replicate k ⟨EVal.inf, none⟩

/-- Inner scan of knn_query: walk the slots in order, overwrite the first
slot whose distance strictly exceeds this_distance with the candidate
distance and id, then stop (the break of the source). -/
def updateKList (d : ℚ) (tid : ℕ) : List Slot → List Slot
  | [] => []
  | s :: rest =>
    if EVal.qlt d s.distance then ⟨EVal.val d, some tid⟩ :: rest
    else s :: updateKList d tid rest

/-- Id of the first row of the reference trajectory (traj[id_].values[0]);
none models the crash the source would have on an empty reference. -/
def firstId (traj : List QRow) : Option ℕ := traj.head?.map QRow.rid

/-- One iteration of the knn_query candidate loop: skip a candidate id equal
to the reference id, otherwise measure the candidate and scan the k_list. -/
def knnStep (traj mdf : List QRow) (m : List QRow → List QRow → ℚ)
    (kl : List Slot) (tid : ℕ) : List Slot :=
  if some tid = firstId traj then kl
  else updateKList (m traj (mdf.filter (fun r => r.rid = tid))) tid kl

/-- Candidate loop of knn_query over the distinct ids of move_df in
first-seen order. -/
def knnKList (traj mdf : List QRow) (k : ℕ)
    (m : List QRow → List QRow → ℚ) : List Slot :=
  (uniqueFirstSeen (mdf.map QRow.rid)).foldl (knnStep traj mdf m) (initKList k)

/-- Rows of move_df whose id equals the slot id; a slot never written has
no traj_id value (NaN), which matches no row. -/
def slotRows (mdf : List QRow) (s : Slot) : List QRow :=
  match s.tid with
  | some t => mdf.filter (fun r => r.rid = t)
  | none => []

/-- Output loop of knn_query: the result starts as a copy of traj (the
source does not empty it, unlike range_query) and appends the rows of each
slot of the k_list in slot order. -/
def knnResult (traj mdf : List QRow) (k : ℕ)
    (m : List QRow → List QRow → ℚ) : List QRow :=
  (knnKList traj mdf k m).foldl (fun res s => res ++ slotRows mdf s) traj

/-- knn_query: dispatch on the distance selector, raising ValueError for an
unknown one, then run the candidate loop and the output loop. -/
def knnQuery (traj mdf : List QRow) (k : ℕ) (distance : String)
    (medp medt : List QRow → List QRow → ℚ) : Except String (List QRow) :=
  if distance = MEDP then Except.ok (knnResult traj mdf k medp)
  else if distance = MEDT then Except.ok (knnResult traj mdf k medt)
  else Except.error "Unknown distance measure. Use MEDP or MEDT"

/-- Reference trajectory of the KNN example of the spec: one row of id 0. -/
def knnExampleTraj : List QRow := [⟨0, 0⟩]

/-- Candidate collection of the KNN example: the candidates A, B, C, D are
ids 1, 2, 3, 4 arriving in that first-seen order, one row each. -/
def knnExampleMdf : List QRow := [⟨1, 10⟩, ⟨2, 20⟩, ⟨3, 30⟩, ⟨4, 40⟩]

/-- Distance table of the KNN example: A at 5, B at 2, C at 9, D at 1. -/
def knnExampleDist (_t cand : List QRow) : ℚ :=
  match cand.head? with
  | some r =>
    if r.rid = 1 then 5 else if r.rid = 2 then 2 else if r.rid = 3 then 9
    else 1
  | none => 0

/-- Candidate collection of the range-query example: A, B, C are ids
1, 2, 3 with two, one and two rows. -/
def rangeExampleMdf : List QRow :=
  [⟨1, 10⟩, ⟨1, 11⟩, ⟨2, 20⟩, ⟨3, 30⟩, ⟨3, 31⟩]

/-- MEDP distance table of the range-query example: A at 800, B at 1500,
C at 950. -/
def rangeExampleDist (_t cand : List QRow) : ℚ :=
  match cand.head? with
  | some r => if r.rid = 1 then 800 else if r.rid = 2 then 1500 else 950
  | none => 0

lemma length_filter_add_length_filter_not {α : Type} (l : List α)
    (p : α → Bool) :
    (l.filter p).length + (l.filter (fun a => !(p a))).length = l.length := by
  induction l with
  | nil => simp
  | cons a l ih =>
    by_cases h : p a = true <;> simp [List.filter_cons, h] <;> omega

lemma rowsToDrop_add_dropMasked_length {α : Type} (rows : List α)
    (m : List Bool) :
    rowsToDrop rows m + (dropMasked rows m).length = (rows.zip m).length := by
  simp only [rowsToDrop, selectMasked, dropMasked, List.length_map]
  exact length_filter_add_length_filter_not (rows.zip m) (fun p => p.2)

lemma dropMasked_length_lt {α : Type} (rows : List α) (m : List Bool)
    (h : 0 < rowsToDrop rows m) : (dropMasked rows m).length < rows.length := by
  have h1 := rowsToDrop_add_dropMasked_length rows m
  have h2 : (rows.zip m).length ≤ rows.length := by
    simp [List.length_zip]
  omega

lemma cleanGps_of_zero {α : Type} (mask : List α → List Bool) (rows : List α)
    (h : rowsToDrop rows (mask rows) = 0) : cleanGps mask rows = rows := by
  rw [cleanGps]
  simp [h]

lemma cleanGps_of_pos {α : Type} (mask : List α → List Bool) (rows : List α)
    (h : rowsToDrop rows (mask rows) ≠ 0) :
    cleanGps mask rows = cleanGps mask (dropMasked rows (mask rows)) := by
  rw [cleanGps]
  simp [h]

lemma cleanGps_fixpoint {α : Type} (mask : List α → List Bool)
    (rows : List α) :
    rowsToDrop (cleanGps mask rows) (mask (cleanGps mask rows)) = 0 := by
  by_cases h : rowsToDrop rows (mask rows) = 0
  · rw [cleanGps_of_zero mask rows h]; exact h
  · rw [cleanGps_of_pos mask rows h]
    exact cleanGps_fixpoint mask (dropMasked rows (mask rows))
termination_by rows.length
decreasing_by
  exact dropMasked_length_lt rows (mask rows) (Nat.pos_of_ne_zero h)

lemma cleanGps_length_le {α : Type} (mask : List α → List Bool)
    (rows : List α) :
    (cleanGps mask rows).length ≤ rows.length := by
  by_cases h : rowsToDrop rows (mask rows) = 0
  · rw [cleanGps_of_zero mask rows h]
  · rw [cleanGps_of_pos mask rows h]
    have h1 := cleanGps_length_le mask (dropMasked rows (mask rows))
    have h2 := dropMasked_length_lt rows (mask rows) (Nat.pos_of_ne_zero h)
    omega
termination_by rows.length
decreasing_by
  exact dropMasked_length_lt rows (mask rows) (Nat.pos_of_ne_zero h)

lemma selectMasked_map {α : Type} (rows : List α) (g : α → Bool) :
    selectMasked rows (rows.map g) = rows.filter g := by
  induction rows with
  | nil => rfl
  | cons a l ih =>
    by_cases h : g a = true <;>
      simp [selectMasked, List.filter_cons, h] at ih ⊢ <;>
      simpa [selectMasked] using ih

lemma dropMasked_map {α : Type} (rows : List α) (g : α → Bool) :
    dropMasked rows (rows.map g) = rows.filter (fun a => !(g a)) := by
  induction rows with
  | nil => rfl
  | cons a l ih =>
    by_cases h : g a = true <;>
      simp [dropMasked, List.filter_cons, h] at ih ⊢ <;>
      simpa [dropMasked] using ih

/-- C7: the convergence loop of _clean_gps terminates on every finite
collection and predicate: its result is a fixed point where the predicate
selects zero rows, the result is never longer than the input, an empty
selection stops the loop at once, and a non-empty selection strictly
decreases the row count before the loop continues on the shrunk
collection. -/
theorem cleanGps_termination {α : Type} (mask : List α → List Bool)
    (rows : List α) :
    rowsToDrop (cleanGps mask rows) (mask (cleanGps mask rows)) = 0
    ∧ (cleanGps mask rows).length ≤ rows.length
    ∧ (rowsToDrop rows (mask rows) = 0 → cleanGps mask rows = rows)
    ∧ (0 < rowsToDrop rows (mask rows) →
        (dropMasked rows (mask rows)).length < rows.length
        ∧ cleanGps mask rows = cleanGps mask (dropMasked rows (mask rows))) := by
  refine ⟨cleanGps_fixpoint mask rows, cleanGps_length_le mask rows,
    fun h => cleanGps_of_zero mask rows h, fun h => ?_⟩
  exact ⟨dropMasked_length_lt rows (mask rows) h,
    cleanGps_of_pos mask rows (Nat.pos_iff_ne_zero.mp h)⟩

/-- Witness for C7 at a concrete predicate and collection whose first
predicate evaluation selects one row. -/
theorem cleanGps_termination_witness :
    0 < rowsToDrop [FVal.nan, FVal.val 5, FVal.val 20]
        (maskSingleByMax id 10 [FVal.nan, FVal.val 5, FVal.val 20])
    ∧ (cleanGps (maskSingleByMax id 10)
        [FVal.nan, FVal.val 5, FVal.val 20]).length ≤ 3 := by
  refine ⟨by decide, ?_⟩
  simpa using
    (cleanGps_termination (maskSingleByMax id 10)
      [FVal.nan, FVal.val 5, FVal.val 20]).2.1

/-- C2 counterexample: on the feature column NaN, 5, 20 with threshold 10
one engine iteration keeps NaN and 20, the rows where feature <= 10 is
FALSE, while the claim predicts the kept set is the single row 5 where
feature <= 10 holds. -/
theorem maxThreshold_kept_set_cex :
    dropMasked [FVal.nan, FVal.val 5, FVal.val 20]
        (maskSingleByMax id 10 [FVal.nan, FVal.val 5, FVal.val 20])
      = [FVal.nan, FVal.val 20]
    ∧ filterSingleByMax id 10 [FVal.nan, FVal.val 5, FVal.val 20]
      = [FVal.val 5]
    ∧ dropMasked [FVal.nan, FVal.val 5, FVal.val 20]
        (maskSingleByMax id 10 [FVal.nan, FVal.val 5, FVal.val 20])
      ≠ filterSingleByMax id 10 [FVal.nan, FVal.val 5, FVal.val 20] := by
  decide

/-- C2 amended: on every iteration of the convergence loop the predicate
_filter_single_by_max selects exactly the rows where feature <= threshold
holds (false for NaN), the engine removes exactly those selected rows, and
the kept set is exactly the complement, the rows where feature <= threshold
is false. -/
theorem maxThreshold_drop_set {α : Type} (feature : α → FVal) (value : ℚ)
    (rows : List α) :
    selectMasked rows (maskSingleByMax feature value rows)
      = filterSingleByMax feature value rows
    ∧ dropMasked rows (maskSingleByMax feature value rows)
      = rows.filter (fun r => !(feature r).leQ value) := by
  exact ⟨selectMasked_map rows (fun r => (feature r).leQ value),
    dropMasked_map rows (fun r => (feature r).leQ value)⟩

/-- C1 (code bug): the loop of _clean_gps never recomputes motion features
after a removal iteration.  On the single trajectory with positions 0, 5,
25 and provider-computed features, cleaning nearby points with radius 10
drops the middle point but returns the last point with its stale
dist_to_prev of 20, although its current immediate predecessor sits at
distance 25, so the feature consistency invariant fails on the returned
collection. -/
theorem cleanGps_stale_features :
    cleanGps (maskSingleByMax PRow.distToPrev 10)
        (generateDistFeatures exDistTable [0, 5, 25])
      = [⟨0, FVal.nan⟩, ⟨25, FVal.val 20⟩]
    ∧ ¬ featureConsistent exDistTable
        (cleanGps (maskSingleByMax PRow.distToPrev 10)
          (generateDistFeatures exDistTable [0, 5, 25])) := by
  have h1 : cleanGps (maskSingleByMax PRow.distToPrev 10)
      (generateDistFeatures exDistTable [0, 5, 25])
      = [⟨0, FVal.nan⟩, ⟨25, FVal.val 20⟩] := by
    rw [cleanGps_of_pos _ _ (by decide), cleanGps_of_zero _ _ (by decide)]
    decide
  refine ⟨h1, ?_⟩
  rw [h1]
  unfold featureConsistent
  decide

/-- C4 (code bug): _filter_speed_max_radius shifts the speed column by +1
and therefore tests the PREVIOUS row, not the following row described by
its docstring and the spec.  On the speed column NaN, 60, 10 with bound 50
the source flags positions 1 and 2, the documented predicate flags
positions 0 and 1, and the two disagree. -/
theorem speedMaxRadius_shift_direction :
    maskSpeedMaxRadius id 50 [FVal.nan, FVal.val 60, FVal.val 10]
      = [false, true, true]
    ∧ maskSpeedMaxRadiusSpec id 50 [FVal.nan, FVal.val 60, FVal.val 10]
      = [true, true, false]
    ∧ maskSpeedMaxRadius id 50 [FVal.nan, FVal.val 60, FVal.val 10]
      ≠ maskSpeedMaxRadiusSpec id 50 [FVal.nan, FVal.val 60, FVal.val 10] := by
  decide

lemma mem_uniqAux (a : ℕ) (l : List ℕ) : ∀ (seen : List ℕ),
    a ∈ uniqAux seen l ↔ (a ∈ l ∧ a ∉ seen) := by
  induction l with
  | nil => intro seen; simp [uniqAux]
  | cons x xs ih =>
    intro seen
    by_cases hx : x ∈ seen
    · rw [uniqAux, if_pos hx, ih seen]
      simp only [List.mem_cons]
      constructor
      · rintro ⟨h1, h2⟩; exact ⟨Or.inr h1, h2⟩
      · rintro ⟨h1 | h1, h2⟩
        · exact absurd (h1 ▸ hx) h2
        · exact ⟨h1, h2⟩
    · rw [uniqAux, if_neg hx]
      by_cases ha : a = x
      · subst ha
        simp [hx]
      · simp only [List.mem_cons, ha, false_or]
        rw [ih (x :: seen)]
        simp [List.mem_cons, ha]

lemma mem_uniqueFirstSeen (a : ℕ) (l : List ℕ) :
    a ∈ uniqueFirstSeen l ↔ a ∈ l := by
  simp [uniqueFirstSeen, mem_uniqAux]

/-- C9: clean_id_by_time_max keeps exactly the rows whose id group has
summed time_to_prev at least time_max, and removes exactly the rows of the
groups whose sum is strictly below it; a row survives depending only on
the aggregate of its group, so whole groups are removed, never parts of
one. -/
theorem clean_id_by_time_max_keeps_heavy_groups (rows : List TRow)
    (timeMax : ℚ) :
    clean_id_by_time_max rows timeMax
      = rows.filter (fun r => decide (timeMax ≤ groupTimeSum rows r.rid)) := by
  unfold clean_id_by_time_max
  apply List.filter_congr
  intro r hr
  have hmem : r.rid ∈ uniqueFirstSeen (rows.map TRow.rid) := by
    rw [mem_uniqueFirstSeen]
    exact List.mem_map_of_mem TRow.rid hr
  rw [decide_eq_decide]
  simp [List.mem_filter, hmem, not_lt]

lemma foldl_rangeStep_eq (traj mdf : List QRow) (minDist : ℚ)
    (m : List QRow → List QRow → ℚ) :
    ∀ (ids : List ℕ) (acc : List QRow),
      ids.foldl (rangeStep traj mdf minDist m) acc
        = acc ++ ((ids.filter (fun tid =>
            decide (m traj (mdf.filter (fun r => r.rid = tid)) < minDist))).map
              (fun tid => mdf.filter (fun r => r.rid = tid))).flatten := by
  intro ids
  induction ids with
  | nil => intro acc; simp
  | cons t ts ih =>
    intro acc
    rw [List.foldl_cons, ih, List.filter_cons]
    by_cases h : m traj (mdf.filter (fun r => r.rid = t)) < minDist
    · simp [rangeStep, h, List.append_assoc]
    · simp [rangeStep, h]

lemma foldl_append_join {α β : Type} (g : β → List α) :
    ∀ (l : List β) (acc : List α),
      l.foldl (fun res s => res ++ g s) acc = acc ++ (l.map g).flatten := by
  intro l
  induction l with
  | nil => intro acc; simp
  | cons s ss ih =>
    intro acc
    rw [List.foldl_cons, ih]
    simp [List.append_assoc]

lemma updateKList_length (d : ℚ) (tid : ℕ) :
    ∀ (slots : List Slot), (updateKList d tid slots).length = slots.length := by
  intro slots
  induction slots with
  | nil => rfl
  | cons s rest ih =>
    by_cases h : EVal.qlt d s.distance
    · simp [updateKList, h]
    · simp [updateKList, h, ih]

lemma foldl_knnStep_length (traj mdf : List QRow)
    (m : List QRow → List QRow → ℚ) :
    ∀ (ids : List ℕ) (kl : List Slot),
      (ids.foldl (knnStep traj mdf m) kl).length = kl.length := by
  intro ids
  induction ids with
  | nil => intro kl; rfl
  | cons t ts ih =>
    intro kl
    rw [List.foldl_cons, ih]
    unfold knnStep
    by_cases h : some t = firstId traj
    · rw [if_pos h]
    · rw [if_neg h, updateKList_length]

lemma updateKList_of_none (d : ℚ) (tid : ℕ) :
    ∀ (slots : List Slot),
      (∀ s ∈ slots, EVal.qlt d s.distance = false) →
      updateKList d tid slots = slots := by
  intro slots
  induction slots with
  | nil => intro _; rfl
  | cons s rest ih =>
    intro hall
    have h0 := hall s (List.mem_cons_self s rest)
    simp only [updateKList, h0, Bool.false_eq_true, if_false, List.cons.injEq,
      true_and]
    exact ih (fun x hx => hall x (List.mem_cons_of_mem s hx))

lemma updateKList_of_first (d : ℚ) (tid : ℕ) :
    ∀ (slots : List Slot) (j : ℕ) (hj : j < slots.length),
      EVal.qlt d ((slots.get ⟨j, hj⟩).distance) = true →
      (∀ (i : ℕ) (hi : i < slots.length), i < j →
        EVal.qlt d ((slots.get ⟨i, hi⟩).distance) = false) →
      updateKList d tid slots = slots.set j ⟨EVal.val d, some tid⟩ := by
  intro slots
  induction slots with
  | nil =>
    intro j hj
    simp at hj
  | cons s rest ih =>
    intro j hj htrue hfalse
    cases j with
    | zero =>
      simp only [List.get] at htrue
      simp [updateKList, htrue]
    | succ j =>
      have h0 : EVal.qlt d s.distance = false := by
        simpa using hfalse 0 (by simp) (Nat.succ_pos j)
      have hj2 : j < rest.length := by
        simpa using hj
      have ht2 : EVal.qlt d ((rest.get ⟨j, hj2⟩).distance) = true := by
        simpa using htrue
      have hf2 : ∀ (i : ℕ) (hi : i < rest.length), i < j →
          EVal.qlt d ((rest.get ⟨i, hi⟩).distance) = false := by
        intro i hi hij
        simpa using hfalse (i + 1) (by simpa using Nat.succ_lt_succ hi)
          (Nat.succ_lt_succ hij)
      simp only [updateKList, h0, Bool.false_eq_true, if_false, List.set]
      rw [ih j hj2 ht2 hf2]

/-- C3 counterexample: on the spec example, candidates A, B, C, D (ids 1,
2, 3, 4) at distances 5, 2, 9, 1 with k = 2, the final Top-K List of the
source holds D(1) in slot 0 and C(9) in slot 1, not B(2): B occupied slot
0 and was overwritten by D, while C landed in slot 1. -/
theorem knn_example_topk_cex :
    knnKList knnExampleTraj knnExampleMdf 2 knnExampleDist
      = [⟨EVal.val 1, some 4⟩, ⟨EVal.val 9, some 3⟩]
    ∧ knnKList knnExampleTraj knnExampleMdf 2 knnExampleDist
      ≠ [⟨EVal.val 1, some 4⟩, ⟨EVal.val 2, some 2⟩] := by
  decide

/-- C3 amended: knn_query skips every candidate id equal to the reference
id; for any other candidate the Top-K scan overwrites the FIRST slot whose
current distance strictly exceeds the candidate distance and stops there,
leaving every other slot untouched, and leaves the list unchanged when no
slot dominates the candidate; on the example A(5), B(2), C(9), D(1) with
k = 2 the list ends with D(1) in slot 0 and C(9) in slot 1. -/
theorem knn_topk_scan_rule :
    (∀ (traj mdf : List QRow) (m : List QRow → List QRow → ℚ)
        (kl : List Slot) (tid : ℕ),
      some tid = firstId traj → knnStep traj mdf m kl tid = kl)
    ∧ (∀ (d : ℚ) (tid : ℕ) (slots : List Slot) (j : ℕ)
        (hj : j < slots.length),
        EVal.qlt d ((slots.get ⟨j, hj⟩).distance) = true →
        (∀ (i : ℕ) (hi : i < slots.length), i < j →
          EVal.qlt d ((slots.get ⟨i, hi⟩).distance) = false) →
        updateKList d tid slots = slots.set j ⟨EVal.val d, some tid⟩)
    ∧ (∀ (d : ℚ) (tid : ℕ) (slots : List Slot),
        (∀ s ∈ slots, EVal.qlt d s.distance = false) →
        updateKList d tid slots = slots)
    ∧ knnKList knnExampleTraj knnExampleMdf 2 knnExampleDist
      = [⟨EVal.val 1, some 4⟩, ⟨EVal.val 9, some 3⟩] := by
  refine ⟨?_, updateKList_of_first, updateKList_of_none, by decide⟩
  intro traj mdf m kl tid h
  unfold knnStep
  rw [if_pos h]

/-- Witness for C3 on a concrete scan: distance 1 dominates the first slot
holding distance 2, which is overwritten while the later sentinel slot is
untouched. -/
theorem knn_topk_scan_rule_witness :
    EVal.qlt 1 (EVal.val 2) = true
    ∧ updateKList 1 4 [⟨EVal.val 2, some 2⟩, ⟨EVal.inf, none⟩]
      = [⟨EVal.val 1, some 4⟩, ⟨EVal.inf, none⟩] := by
  constructor
  · decide
  · have h := knn_topk_scan_rule.2.1 1 4
      [⟨EVal.val 2, some 2⟩, ⟨EVal.inf, none⟩] 0 (by decide) (by decide)
      (fun i hi hlt => absurd hlt (Nat.not_lt_zero i))
    simpa using h

/-- C6 counterexample: on the KNN example the returned collection is the
reference row followed by the slot rows, so it is NOT the bare
concatenation of the Top-K slots rows the claim describes. -/
theorem knn_result_includes_ref_cex :
    knnResult knnExampleTraj knnExampleMdf 2 knnExampleDist
      = knnExampleTraj ++ [⟨4, 40⟩, ⟨3, 30⟩]
    ∧ knnResult knnExampleTraj knnExampleMdf 2 knnExampleDist
      ≠ [⟨4, 40⟩, ⟨3, 30⟩] := by
  decide

/-- C6 amended: the collection knn_query returns is the reference
trajectory rows followed by the concatenation, in slot order, of all
points of move_df belonging to the recorded trajectory id; the
k_list always holds exactly k slots and a sentinel slot never overwritten
contributes no points. -/
theorem knn_result_concatenation (traj mdf : List QRow) (k : ℕ)
    (m : List QRow → List QRow → ℚ) :
    knnResult traj mdf k m
      = traj ++ ((knnKList traj mdf k m).map (slotRows mdf)).flatten
    ∧ (knnKList traj mdf k m).length = k
    ∧ (∀ e : EVal, slotRows mdf ⟨e, none⟩ = []) := by
  refine ⟨?_, ?_, fun e => rfl⟩
  · unfold knnResult
    exact foldl_append_join (slotRows mdf) (knnKList traj mdf k m) traj
  · unfold knnKList
    rw [foldl_knnStep_length]
    simp [initKList]

/-- C5: range_query with the MEDP selector runs the candidate loop, which
visits each distinct candidate id in first-seen order and returns exactly
the concatenation, in visit order, of the full point sets of the
candidates whose measured distance is strictly below min_dist; on the
example distances A 800, B 1500, C 950 with min_dist 1000 only the A and C
points remain, in id-encounter order. -/
theorem range_query_strict_filter (traj mdf : List QRow) (minDist : ℚ)
    (medp medt : List QRow → List QRow → ℚ) :
    rangeQuery traj mdf minDist MEDP medp medt
      = Except.ok (rangeLoop traj mdf minDist medp)
    ∧ rangeLoop traj mdf minDist medp
      = (((uniqueFirstSeen (mdf.map QRow.rid)).filter (fun tid =>
            decide (medp traj (mdf.filter (fun r => r.rid = tid))
              < minDist))).map
          (fun tid => mdf.filter (fun r => r.rid = tid))).flatten
    ∧ rangeLoop knnExampleTraj rangeExampleMdf 1000 rangeExampleDist
      = [⟨1, 10⟩, ⟨1, 11⟩, ⟨3, 30⟩, ⟨3, 31⟩] := by
  refine ⟨?_, ?_, by decide⟩
  · simp [rangeQuery]
  · unfold rangeLoop
    rw [foldl_rangeStep_eq]
    simp

/-- C8: both query functions raise the unknown-measure ValueError for any
selector other than MEDP and MEDT; the error is a constant independent of
the candidate data, so no candidate is processed, and for the selectors
MEDP and MEDT the queries succeed instead. -/
theorem query_invalid_measure (traj mdf : List QRow) (minDist : ℚ) (k : ℕ)
    (s : String) (medp medt : List QRow → List QRow → ℚ) :
    (s ≠ MEDP → s ≠ MEDT →
      rangeQuery traj mdf minDist s medp medt
        = Except.error "Unknown distance measure. Use MEDP or MEDT"
      ∧ knnQuery traj mdf k s medp medt
        = Except.error "Unknown distance measure. Use MEDP or MEDT")
    ∧ rangeQuery traj mdf minDist MEDP medp medt
      = Except.ok (rangeLoop traj mdf minDist medp)
    ∧ rangeQuery traj mdf minDist MEDT medp medt
      = Except.ok (rangeLoop traj mdf minDist medt)
    ∧ knnQuery traj mdf k MEDP medp medt
      = Except.ok (knnResult traj mdf k medp)
    ∧ knnQuery traj mdf k MEDT medp medt
      = Except.ok (knnResult traj mdf k medt) := by
  refine ⟨fun h1 h2 => ⟨?_, ?_⟩, ?_, ?_, ?_, ?_⟩
  · unfold rangeQuery
    rw [if_neg h1, if_neg h2]
  · unfold knnQuery
    rw [if_neg h1, if_neg h2]
  · unfold rangeQuery
    rw [if_pos rfl]
  · unfold rangeQuery
    rw [if_neg (by decide), if_pos rfl]
  · unfold knnQuery
    rw [if_pos rfl]
  · unfold knnQuery
    rw [if_neg (by decide), if_pos rfl]

/-- Witness for C8 at the concrete unknown selector dtw. -/
theorem query_invalid_measure_witness :
    ("dtw" : String) ≠ MEDP
    ∧ ("dtw" : String) ≠ MEDT
    ∧ rangeQuery [] [] 0 "dtw" (fun _ _ => 0) (fun _ _ => 0)
      = Except.error "Unknown distance measure. Use MEDP or MEDT" := by
  refine ⟨by decide, by decide, ?_⟩
  exact ((query_invalid_measure [] [] 0 0 "dtw" (fun _ _ => 0)
    (fun _ _ => 0)).1 (by decide) (by decide)).1

/-- C10: range_query applies no self-exclusion: a candidate id equal to
the reference first-row id is measured and appended exactly like any other
candidate whenever its distance is strictly below min_dist (and dropped by
the threshold alone otherwise), so every row of that id reaches the
result; knn_query by contrast skips that id in its candidate loop. -/
theorem range_query_no_self_exclusion (traj mdf : List QRow) (minDist : ℚ)
    (m : List QRow → List QRow → ℚ) (rid : ℕ)
    (hfirst : firstId traj = some rid) :
    (m traj (mdf.filter (fun r => r.rid = rid)) < minDist →
      (∀ res, rangeStep traj mdf minDist m res rid
        = res ++ mdf.filter (fun r => r.rid = rid))
      ∧ (∀ r ∈ mdf, r.rid = rid → r ∈ rangeLoop traj mdf minDist m))
    ∧ (¬ m traj (mdf.filter (fun r => r.rid = rid)) < minDist →
        ∀ res, rangeStep traj mdf minDist m res rid = res)
    ∧ (∀ kl, knnStep traj mdf m kl rid = kl) := by
  refine ⟨fun h => ⟨fun res => ?_, fun r hr hid => ?_⟩,
    fun h res => ?_, fun kl => ?_⟩
  · simp [rangeStep, h]
  · rw [rangeLoop, foldl_rangeStep_eq]
    simp only [List.nil_append]
    rw [List.mem_flatten]
    refine ⟨mdf.filter (fun r => r.rid = rid), ?_, ?_⟩
    · apply List.mem_map_of_mem
      rw [List.mem_filter]
      refine ⟨?_, by simpa using h⟩
      rw [mem_uniqueFirstSeen, List.mem_map]
      exact ⟨r, hr, hid⟩
    · rw [List.mem_filter]
      exact ⟨hr, by simp [hid]⟩
  · simp [rangeStep, h]
  · unfold knnStep
    rw [if_pos hfirst.symm]

/-- Witness for C10: the reference id 7 occurs in the candidate set at
distance 0 below min_dist 5 and its row reaches the range result. -/
theorem range_query_no_self_exclusion_witness :
    firstId [⟨7, 0⟩] = some 7
    ∧ (⟨7, 1⟩ : QRow) ∈ rangeLoop [⟨7, 0⟩] [⟨7, 1⟩] 5 (fun _ _ => 0) := by
  refine ⟨rfl, ?_⟩
  exact ((range_query_no_self_exclusion [⟨7, 0⟩] [⟨7, 1⟩] 5 (fun _ _ => 0) 7
    rfl).1 (by norm_num)).2 ⟨7, 1⟩ (by simp) rfl

end PyMove
